import Mathlib

/-!
Shallow embedding of the track construction and identification subsystem of
the stvid repository (stvid/fourframe.py and process_new.py), together with
theorems about its behaviour.

Modelling conventions:

* Python floats are modelled as real numbers.  NumPy NaN early returns
  (`return np.nan, ...` when a predicted track is too short) are modelled by
  `Option`-valued functions that return `none` under the same condition;
  since every NumPy comparison against NaN is false, acceptance predicates
  are false on `none`.
* `np.polyfit(ts, ys, d)` is least-squares polynomial fitting.  For the
  degrees used in the source it is embedded as the closed-form solution of
  the normal equations by Cramer's rule, which is the least-squares
  minimiser whenever the normal matrix is nonsingular (always the case at
  the call sites exercised here, which have at least d+1 distinct sample
  times).
* `np.arctan2 y x` is embedded as `Complex.arg ⟨x, y⟩`, which has the same
  quadrant conventions.
* External collaborators (astropy WCS pixel/sky conversion, astropy Time
  formatting, the hough3dlines and satpredict subprocesses) are out of
  scope for the repository and enter as parameters: their outputs are
  arguments of the functions that consume them.
-/

namespace Stvid

/-- Power sum `Σ tᵢ^k` used by the polyfit normal equations. -/
def psum {K : Type} [Field K] (ts : List K) (k : ℕ) : K :=
  (ts.map (fun a => a ^ k)).sum

/-- Weighted sum `Σ tᵢ^k · yᵢ` used by the polyfit normal equations. -/
def wsum {K : Type} [Field K] (ts ys : List K) (k : ℕ) : K :=
  (List.zipWith (fun a b => a ^ k * b) ts ys).sum

/-- Determinant of a 3×3 matrix given row-wise. -/
def det3 {K : Type} [Field K] (a b c d e f g h i : K) : K :=
  a * (e * i - f * h) - b * (d * i - f * g) + c * (d * h - e * g)

/-- `np.polyfit(ts, ys, 2)`: least-squares quadratic fit, coefficients from
highest degree to lowest, obtained by solving the normal equations
`[[s4,s3,s2],[s3,s2,s1],[s2,s1,s0]] ⬝ (a,b,c) = (b2,b1,b0)` with Cramer's
rule. -/
def polyfit2 {K : Type} [Field K] (ts ys : List K) : K × K × K :=
  let s0 : K := (ts.length : K)
  let s1 := psum ts 1
  let s2 := psum ts 2
  let s3 := psum ts 3
  let s4 := psum ts 4
  let b0 := ys.sum
  let b1 := wsum ts ys 1
  let b2 := wsum ts ys 2
  let d := det3 s4 s3 s2 s3 s2 s1 s2 s1 s0
  (det3 b2 s3 s2 b1 s2 s1 b0 s1 s0 / d,
   det3 s4 b2 s2 s3 b1 s1 s2 b0 s0 / d,
   det3 s4 s3 b2 s3 s2 b1 s2 s1 b0 / d)

/-- `np.polyfit(ts, ys, 1)`: least-squares linear fit `(slope, intercept)`,
from the 2×2 normal equations by Cramer's rule. -/
def polyfit1 {K : Type} [Field K] (ts ys : List K) : K × K :=
  let s0 : K := (ts.length : K)
  let s1 := psum ts 1
  let s2 := psum ts 2
  let b0 := ys.sum
  let b1 := wsum ts ys 1
  let d := s2 * s0 - s1 * s1
  ((b1 * s0 - b0 * s1) / d, (s2 * b0 - s1 * b1) / d)

/-- `np.polyval` for a quadratic `[a, b, c]`. -/
def polyval2 {K : Type} [Field K] (p : K × K × K) (t : K) : K :=
  p.1 * t ^ 2 + p.2.1 * t + p.2.2

/-- `np.polyder` of a quadratic `[a, b, c]`, giving `[2a, b]`. -/
def polyder2 {K : Type} [Field K] (p : K × K × K) : K × K :=
  (2 * p.1, p.2.1)

/-- `np.polyval` for a linear polynomial `[a, b]`. -/
def polyval1 {K : Type} [Field K] (p : K × K) (t : K) : K :=
  p.1 * t + p.2

/-- `np.arctan2 y x`, embedded as the complex argument of `x + y i`. -/
noncomputable def atan2 (y x : ℝ) : ℝ :=
  Complex.arg ⟨x, y⟩

/-- `np.mod a b` on floats: `a - b * ⌊a / b⌋`. -/
noncomputable def fmod (a b : ℝ) : ℝ :=
  a - b * (⌊a / b⌋ : ℤ)

/-- Minimum of a list of reals (`np.min`; the source never applies it to an
empty array, the default 0 is never reached at the modelled call sites). -/
def listMin : List ℝ → ℝ
  | [] => 0
  | a :: as => as.foldl min a

/-- Maximum of a list of reals (`np.max`). -/
def listMax : List ℝ → ℝ
  | [] => 0
  | a :: as => as.foldl max a

/-- `np.mean` of a list of reals. -/
noncomputable def listMean (xs : List ℝ) : ℝ :=
  xs.sum / (xs.length : ℝ)

/-- `angle_difference` from process_new.py: the angle between the unit
vectors of the two input angles, via the dot-product formula. -/
noncomputable def angle_difference (ang1 ang2 : ℝ) : ℝ :=
  Real.arccos (Real.cos ang1 * Real.cos ang2 + Real.sin ang1 * Real.sin ang2)

/-- `deproject` from stvid/fourframe.py (an identical copy exists in
process_new.py): rotate the unit vector of `(l, b)` into a frame centred on
`(l0, b0)` and read off tangent-plane offsets, all angles in degrees. -/
noncomputable def deproject (l0 b0 l b : ℝ) : ℝ × ℝ :=
  let lt := l * Real.pi / 180
  let bt := b * Real.pi / 180
  let l0t := l0 * Real.pi / 180
  let b0t := b0 * Real.pi / 180
  let x := Real.cos lt * Real.cos bt
  let y := Real.sin lt * Real.cos bt
  let z := Real.sin bt
  let x1 := Real.cos l0t * x + Real.sin l0t * y
  let y1 := -Real.sin l0t * x + Real.cos l0t * y
  let z1 := z
  let x2 := Real.cos b0t * x1 + Real.sin b0t * z1
  let y2 := y1
  let z2 := -Real.sin b0t * x1 + Real.cos b0t * z1
  let radius := Real.arccos x2
  let pangle := atan2 y2 z2
  (radius * Real.sin pangle * 180 / Real.pi,
   radius * Real.cos pangle * 180 / Real.pi)

/-- Deprojecting the reference direction against itself lands exactly on the
rotated pole, so the radius vanishes and both offsets are zero.  Shared by
the claim theorems and the concrete evaluations. -/
theorem deproject_self (l0 b0 : ℝ) : deproject l0 b0 l0 b0 = (0, 0) := by
  have hl := Real.sin_sq_add_cos_sq (l0 * Real.pi / 180)
  have hb := Real.sin_sq_add_cos_sq (b0 * Real.pi / 180)
  simp only [deproject]
  have h2 : Real.cos (b0 * Real.pi / 180) *
      (Real.cos (l0 * Real.pi / 180) *
        (Real.cos (l0 * Real.pi / 180) * Real.cos (b0 * Real.pi / 180)) +
       Real.sin (l0 * Real.pi / 180) *
        (Real.sin (l0 * Real.pi / 180) * Real.cos (b0 * Real.pi / 180))) +
      Real.sin (b0 * Real.pi / 180) * Real.sin (b0 * Real.pi / 180) = 1 := by
    nlinarith [hl, hb]
  rw [h2, Real.arccos_one]
  norm_num

/-- `Prediction` from stvid/fourframe.py: per-object ephemeris samples.
Only the fields read by the modelled code paths are kept (`mjd`, pixel
`x`/`y`, `state`, `tlefile`, `age`, `texp` are used solely by plotting and
by the external prediction generator). -/
structure Prediction where
  satno : ℕ
  t : List ℝ
  ra : List ℝ
  dec : List ℝ
  rx : List ℝ
  ry : List ℝ

/-- `Prediction.position_and_velocity` from stvid/fourframe.py.  The source
returns a 5-tuple of NaN when fewer than 3 ephemeris samples are available;
this is modelled as `none`. -/
noncomputable def Prediction.position_and_velocity (p : Prediction) (t dt : ℝ) :
    Option (ℝ × ℝ × ℝ × ℝ × ℝ) :=
  if p.t.length < 3 then none
  else
    let px := polyfit2 p.t p.rx
    let py := polyfit2 p.t p.ry
    let dpx := polyder2 px
    let dpy := polyder2 py
    let rx0 := polyval2 px t
    let ry0 := polyval2 py t
    let drxdt := polyval1 dpx t
    let drydt := polyval1 dpy t
    let drdt := Real.sqrt (drxdt ^ 2 + drydt ^ 2)
    let pa := fmod (atan2 (-drxdt) drydt) (2 * Real.pi)
    let dr := drdt * dt
    some (rx0, ry0, drdt, pa, dr)

/-- `Prediction.residual` from stvid/fourframe.py: rotate the positional
residual at time `t0` into the frame of the position angle
`pa = atan2(-drxdt, drydt)` and divide the first component by the angular
rate.  The source returns a NaN pair when fewer than 3 samples are
available; this is modelled as `none`. -/
noncomputable def Prediction.residual (p : Prediction) (t0 rx0 ry0 : ℝ) :
    Option (ℝ × ℝ) :=
  if p.t.length < 3 then none
  else
    let px := polyfit2 p.t p.rx
    let py := polyfit2 p.t p.ry
    let dpx := polyder2 px
    let dpy := polyder2 py
    let rx := polyval2 px t0
    let ry := polyval2 py t0
    let drxdt := polyval1 dpx t0
    let drydt := polyval1 dpy t0
    let drdt := Real.sqrt (drxdt ^ 2 + drydt ^ 2)
    let pa := atan2 (-drxdt) drydt
    let drx := rx0 - rx
    let dry := ry0 - ry
    let ca := Real.cos pa
    let sa := Real.sin pa
    let rm := ca * drx - sa * dry
    let wm := sa * drx + ca * dry
    let dtm := rm / drdt
    some (dtm, wm)

/-- `Track` from stvid/fourframe.py with the fields computed by
`Track.__init__` that the modelled code paths read.  The plotting-only
fields (`xp`, `yp`, `r`, the four extrapolated extrema in each frame) and
the mutable identity fields (`satno`, `cospar`, assigned by the
identification loop and modelled there functionally) are omitted. -/
structure Track where
  t : List ℝ
  x : List ℝ
  y : List ℝ
  z : List ℝ
  ra : List ℝ
  dec : List ℝ
  rx : List ℝ
  ry : List ℝ
  n : ℕ
  tmin : ℝ
  tmax : ℝ
  tmid : ℝ
  rx0 : ℝ
  ry0 : ℝ
  drxdt : ℝ
  drydt : ℝ
  drdt : ℝ
  pa : ℝ
  dr : ℝ
  x0 : ℝ
  y0 : ℝ
  dxdt : ℝ
  dydt : ℝ

/-- `Track.__init__` from stvid/fourframe.py: fit a linear motion model to
the tangent-plane offsets and a quadratic one to the pixel coordinates,
both over `t - tmid`, and derive rate, position angle and traversal. -/
noncomputable def Track.build (t x y z ra dec rx ry : List ℝ) : Track :=
  let tmin := listMin t
  let tmax := listMax t
  let tmid := 0.5 * (tmax + tmin)
  let ts := t.map (fun a => a - tmid)
  let px1 := polyfit1 ts rx
  let py1 := polyfit1 ts ry
  let drxdt := px1.1
  let drydt := py1.1
  let drdt := Real.sqrt (drxdt ^ 2 + drydt ^ 2)
  let px2 := polyfit2 ts x
  let py2 := polyfit2 ts y
  { t := t, x := x, y := y, z := z, ra := ra, dec := dec, rx := rx, ry := ry
    n := x.length
    tmin := tmin, tmax := tmax, tmid := tmid
    rx0 := px1.2, ry0 := py1.2
    drxdt := drxdt, drydt := drydt, drdt := drdt
    pa := fmod (atan2 (-drxdt) drydt) (2 * Real.pi)
    dr := drdt * (tmax - tmin)
    x0 := px2.2.2, y0 := py2.2.2
    dxdt := px2.2.1, dydt := py2.2.1 }

/-- Identification thresholds read from the `[Identification]` section of
the configuration in process_new.py. -/
structure IdentCfg where
  rm_max : ℝ
  dtm_max : ℝ
  dpa_max : ℝ
  fdr_max : ℝ

/-- Acceptance test of the identification loop in process_new.py (lines
188-195): a prediction passes when all four residual measures are strictly
within the configured limits.  When the prediction is too short both
`position_and_velocity` and `residual` return NaN (here `none`) and every
NaN comparison is false, so the test fails. -/
noncomputable def accept (cfg : IdentCfg) (tr : Track) (p : Prediction) : Prop :=
  match p.position_and_velocity tr.tmid (tr.tmax - tr.tmin),
        p.residual tr.tmid tr.rx0 tr.ry0 with
  | some (_, _, _, pa, dr), some (dtm, rm) =>
      |dtm| < cfg.dtm_max ∧ |rm| < cfg.rm_max ∧
      |angle_difference tr.pa pa * 180 / Real.pi| < cfg.dpa_max ∧
      |(dr / tr.dr - 1) * 100| < cfg.fdr_max
  | _, _ => False

open Classical in
/-- Inner identification loop of process_new.py: starting from the default
placeholder id, every passing prediction overwrites the assigned satno. -/
noncomputable def loopSatno (cfg : IdentCfg) (tr : Track) (preds : List Prediction)
    (d : ℕ) : ℕ :=
  preds.foldl (fun acc p => if accept cfg tr p then p.satno else acc) d

/-- The parts of a `FourFrame` that `Observation.__init__` reads.  Pixel to
sky conversion (`SkyCoord.from_pixel` through the frame's WCS) and the MJD
to ISOT calendar-string conversion (`astropy.time.Time(...).isot`) are
external collaborators and enter as function parameters. -/
structure FourFrameRef where
  mjd : ℝ
  mjdToIsot : ℝ → String
  pixelToSky : ℝ → ℝ → ℝ × ℝ

/-- `Observation` from stvid/fourframe.py. -/
structure Observation where
  t : ℝ
  mjd : ℝ
  nfd : String
  x : ℝ
  y : ℝ
  site_id : ℕ
  norad : ℕ
  cospar : String
  ra : ℝ
  dec : ℝ

/-- `Observation.__init__` from stvid/fourframe.py. -/
noncomputable def Observation.make (ff : FourFrameRef) (t x y : ℝ) (site_id norad : ℕ)
    (cospar : String) : Observation :=
  let mjd := ff.mjd + t / 86400
  { t := t, mjd := mjd, nfd := ff.mjdToIsot mjd, x := x, y := y
    site_id := site_id, norad := norad, cospar := cospar
    ra := (ff.pixelToSky x y).1, dec := (ff.pixelToSky x y).2 }

/-- The identification loop of process_new.py (`for i, t in
enumerate(tracks)`, lines 183-202), carrying the running track index: each
track gets the default id `90000 + i` and catalog tag `"22 500A"`, the
inner loop over predictions may overwrite the id, and exactly one
observation is appended per track. -/
noncomputable def identifyFrom (cfg : IdentCfg) (ff : FourFrameRef)
    (preds : List Prediction) : ℕ → List Track → List Observation
  | _, [] => []
  | i, tr :: rest =>
      Observation.make ff tr.tmid tr.x0 tr.y0 4171
          (loopSatno cfg tr preds (90000 + i)) "22 500A" ::
        identifyFrom cfg ff preds (i + 1) rest

/-- The full identification pass over the detected tracks, starting the
enumeration at index 0. -/
noncomputable def identify (cfg : IdentCfg) (ff : FourFrameRef)
    (preds : List Prediction) (tracks : List Track) : List Observation :=
  identifyFrom cfg ff preds 0 tracks

/-- One significant point of the cloud handed to the 3-D Hough transform in
`FourFrame.find_tracks_by_hough3d`: pixel coordinates, the frame index
`znum` in which the pixel attained its maximum, the corresponding frame
time offset `t = dt[znum]`, the peak value, and the sky coordinates
computed for the pixel (`SkyCoord.from_pixel` is an external collaborator,
`deproject` gives `rx`/`ry`). -/
structure HoughPoint where
  x : ℝ
  y : ℝ
  znum : ℕ
  t : ℝ
  zmax : ℝ
  ra : ℝ
  dec : ℝ
  rx : ℝ
  ry : ℝ

/-- One line of the hough3dlines output (`ax ay az bx by bz n` after
`decode_line`): anchor, direction, and vote count. -/
structure HLine where
  ax : ℝ
  ay : ℝ
  az : ℝ
  bx : ℝ
  byv : ℝ
  bz : ℝ
  n : ℕ

open Classical in
/-- Inlier selection in `FourFrame.find_tracks_by_hough3d`: evaluate the
line at each point's own frame index and keep points whose pixel distance
to that position is below `trkrmin`. -/
noncomputable def lineInliers (trkrmin : ℝ) (L : HLine)
    (pts : List HoughPoint) : List HoughPoint :=
  pts.filter (fun q =>
    decide (Real.sqrt ((q.x - (L.ax + ((q.znum : ℝ) - L.az) / L.bz * L.bx)) ^ 2 +
      (q.y - (L.ay + ((q.znum : ℝ) - L.az) / L.bz * L.byv)) ^ 2) < trkrmin))

/-- `FourFrame.find_tracks_by_hough3d` from stvid/fourframe.py, after the
external pieces are factored out: `pts` is the cloud of significant points
(with externally computed sky coordinates) and `lines` the decoded output
of the hough3dlines subprocess.  If the cloud has fewer than `ntrkmin`
points the function returns early; otherwise each line keeps its inliers
and becomes a `Track` whenever at least one point survives
(`np.sum(c) > 0`). -/
noncomputable def find_tracks_by_hough3d (trkrmin ntrkmin : ℝ)
    (pts : List HoughPoint) (lines : List HLine) : List Track :=
  if (pts.length : ℝ) < ntrkmin then []
  else
    lines.filterMap (fun L =>
      let c := lineInliers trkrmin L pts
      if 0 < c.length then
        some (Track.build (c.map (fun q => q.t)) (c.map (fun q => q.x))
          (c.map (fun q => q.y)) (c.map (fun q => q.zmax))
          (c.map (fun q => q.ra)) (c.map (fun q => q.dec))
          (c.map (fun q => q.rx)) (c.map (fun q => q.ry)))
      else none)

/-- One pixel of the stacked frame statistics (`zavg`, `zstd`, `zmax` image
planes and the per-pixel index `znum` of the contributing frame), in the
row-major order produced by `np.meshgrid` and `np.ravel`.  Rational values
keep the extractor executable. -/
structure Pixel where
  x : ℕ
  y : ℕ
  zavg : ℚ
  zstd : ℚ
  zmax : ℚ
  znum : ℕ
deriving DecidableEq

/-- The inputs of the significant-point extractor: the pixel grid and the
per-frame time offset table `dt`. -/
structure FourFrameData where
  pixels : List Pixel
  dt : List ℚ

/-- The sigma frame of `FourFrame.__init__` (line 246):
`zsig = (zmax - zavg) / (zstd + 1e-9)`. -/
def zsig (px : Pixel) : ℚ :=
  (px.zmax - px.zavg) / (px.zstd + 1 / 1000000000)

/-- A selected significant point: pixel coordinates paired with the time
offset of its contributing frame. -/
structure SigPoint where
  x : ℕ
  y : ℕ
  t : ℚ
deriving DecidableEq

/-- The significant-point extractor of `FourFrame.find_tracks_by_hough3d`
(lines 374-381): keep the pixels whose sigma-frame value exceeds the
threshold and pair each with `dt[znum]` (an out-of-range `znum` would raise
in the source and is modelled by the default 0, never reached at the call
sites considered here). -/
def significantPoints (ff : FourFrameData) (sigma : ℚ) : List SigPoint :=
  (ff.pixels.filter (fun px => decide (sigma < zsig px))).map
    (fun px => { x := px.x, y := px.y, t := ff.dt.getD px.znum 0 })

/-- The quadratic branch of `residuals` in process_new.py (taken when
`len(p.t) > 3`): deproject track and prediction onto the tangent plane at
the track's mean position, fit degree-2 polynomials to the prediction, and
return the RMS positional residual of the track points. -/
noncomputable def residualsQuad (o : Track) (p : Prediction) : ℝ :=
  let ra0 := listMean o.ra
  let dec0 := listMean o.dec
  let rxo := List.zipWith (fun a d => (deproject ra0 dec0 a d).1) o.ra o.dec
  let ryo := List.zipWith (fun a d => (deproject ra0 dec0 a d).2) o.ra o.dec
  let rxp := List.zipWith (fun a d => (deproject ra0 dec0 a d).1) p.ra p.dec
  let ryp := List.zipWith (fun a d => (deproject ra0 dec0 a d).2) p.ra p.dec
  let px := polyfit2 p.t rxp
  let py := polyfit2 p.t ryp
  let drx := List.zipWith (fun a t => a - polyval2 px t) rxo o.t
  let dry := List.zipWith (fun a t => a - polyval2 py t) ryo o.t
  let r := List.zipWith (fun a b => Real.sqrt (a ^ 2 + b ^ 2)) drx dry
  Real.sqrt ((r.map (fun a => a ^ 2)).sum / (r.length : ℝ))

/-- The linear branch of `residuals` in process_new.py (taken when
`len(p.t) == 3`): as `residualsQuad` but with degree-1 fits. -/
noncomputable def residualsLin (o : Track) (p : Prediction) : ℝ :=
  let ra0 := listMean o.ra
  let dec0 := listMean o.dec
  let rxo := List.zipWith (fun a d => (deproject ra0 dec0 a d).1) o.ra o.dec
  let ryo := List.zipWith (fun a d => (deproject ra0 dec0 a d).2) o.ra o.dec
  let rxp := List.zipWith (fun a d => (deproject ra0 dec0 a d).1) p.ra p.dec
  let ryp := List.zipWith (fun a d => (deproject ra0 dec0 a d).2) p.ra p.dec
  let px := polyfit1 p.t rxp
  let py := polyfit1 p.t ryp
  let drx := List.zipWith (fun a t => a - polyval1 px t) rxo o.t
  let dry := List.zipWith (fun a t => a - polyval1 py t) ryo o.t
  let r := List.zipWith (fun a b => Real.sqrt (a ^ 2 + b ^ 2)) drx dry
  Real.sqrt ((r.map (fun a => a ^ 2)).sum / (r.length : ℝ))

/-- `residuals` from process_new.py: the quadratic branch when more than 3
prediction samples exist, the linear branch when more than 2, and otherwise
the source returns `np.nan`, modelled as `none`. -/
noncomputable def residuals (o : Track) (p : Prediction) : Option ℝ :=
  if 3 < p.t.length then some (residualsQuad o p)
  else if 2 < p.t.length then some (residualsLin o p)
  else none

/-- Decimal digits of `n`, least significant first, with explicit fuel so
that the definition is structural (the fuel `n` itself always suffices). -/
def natDigitsRev : ℕ → ℕ → List ℕ
  | 0, _ => []
  | _ + 1, 0 => []
  | fuel + 1, n + 1 => (n + 1) % 10 :: natDigitsRev fuel ((n + 1) / 10)

/-- Decimal digits of `n`, most significant first, as printed by `%d`. -/
def natDigits (n : ℕ) : List ℕ :=
  if n = 0 then [0] else (natDigitsRev n n).reverse

/-- Decimal representation of `n` as characters, as printed by `%d`. -/
def natChars (n : ℕ) : List Char :=
  (natDigits n).map Nat.digitChar

/-- Zero padding to width `w`, as printed by `%0wd` (wider inputs keep all
their digits, exactly like printf). -/
def padz (w : ℕ) (s : List Char) : List Char :=
  List.replicate (w - s.length) '0' ++ s

/-- Left justification to width `w`, as printed by `%-ws`. -/
def padSpaces (w : ℕ) (s : String) : String :=
  s ++ String.mk (List.replicate (w - s.length) ' ')

/-- `%0wd` of a natural number as a string. -/
def fmtNat (w : ℕ) (n : ℕ) : String :=
  String.mk (padz w (natChars n))

/-- Fixed-point rendering of a nonnegative value: printf
`%0(intw+1+decw).(decw)f`.  The value is scaled by `10^decw` and rounded to
the nearest integer (the float rounding of the C library; ties are avoided
at every concrete input considered here), then printed as zero-padded
integer part, a dot, and a zero-padded `decw`-digit fraction. -/
def fmtFix {K : Type} [LinearOrderedField K] [FloorRing K] (intw decw : ℕ)
    (x : K) : List Char :=
  let m := (⌊x * (10 : K) ^ decw + 1 / 2⌋).toNat
  padz intw (natChars (m / 10 ^ decw)) ++ '.' :: padz decw (natChars (m % 10 ^ decw))

/-- `format_position` from stvid/fourframe.py: render
`"%02d%06.3f%c%02d%05.2f" % (rah, ram, sign, ded, dem)` for IOD position
format 2 and strip the decimal dots.  `np.sign(de) == -1` is exactly
`de < 0`. -/
def format_position {K : Type} [LinearOrderedField K] [FloorRing K]
    (ra de : K) : String :=
  let ram := 60 * ra / 15
  let rah := ⌊ram / 60⌋
  let ram1 := ram - 60 * (rah : K)
  let dem := 60 * |de|
  let ded := ⌊dem / 60⌋
  let dem1 := dem - 60 * (ded : K)
  let sign : Char := if de < 0 then '-' else '+'
  String.mk (((padz 2 (natChars rah.toNat) ++ fmtFix 2 3 ram1) ++
    sign :: (padz 2 (natChars ded.toNat) ++ fmtFix 2 2 dem1)).filter
      (fun c => c != '.'))

/-- The timestamp compaction in `Observation.to_iod_line`: the source
removes the characters `-`, `T`, `:` and `.` (four single-character
`str.replace` calls with an empty replacement, i.e. a filter). -/
def compactTime (s : String) : String :=
  String.mk (s.data.filter (fun c => !(c == '-' || c == 'T' || c == ':' || c == '.')))

/-- The fixed-width assembly in `Observation.to_iod_line`:
`"%05d %-9s %04d G %s 17 25 %s 37 S"`. -/
def iodLineOf (norad : ℕ) (cospar : String) (site_id : ℕ) (nfd : String)
    (pstr : String) : String :=
  fmtNat 5 norad ++ " " ++ padSpaces 9 cospar ++ " " ++ fmtNat 4 site_id ++
    " G " ++ compactTime nfd ++ " 17 25 " ++ pstr ++ " 37 S"

/-- `Observation.to_iod_line` from stvid/fourframe.py. -/
noncomputable def Observation.to_iod_line (o : Observation) : String :=
  iodLineOf o.norad o.cospar o.site_id o.nfd (format_position o.ra o.dec)

/-- Demonstration prediction: three ephemeris samples at a fixed sky
direction, moving north in the tangent plane at one degree per second. -/
noncomputable def predDemo : Prediction :=
  { satno := 11111, t := [0, 1, 2], ra := [10, 10, 10], dec := [20, 20, 20],
    rx := [0, 0, 0], ry := [0, 1, 2] }

/-- The same ephemeris under a second catalogue id. -/
noncomputable def predDemo2 : Prediction :=
  { predDemo with satno := 22222 }

/-- Demonstration prediction with only two ephemeris samples. -/
noncomputable def predShort : Prediction :=
  { satno := 33333, t := [0, 1], ra := [10, 10], dec := [20, 20],
    rx := [0, 0], ry := [0, 1] }

/-- Demonstration prediction with four ephemeris samples. -/
noncomputable def predLong : Prediction :=
  { satno := 44444, t := [0, 1, 2, 3], ra := [10, 10, 10, 10],
    dec := [20, 20, 20, 20], rx := [0, 0, 0, 0], ry := [0, 1, 2, 3] }

/-- Demonstration track built from three detected points moving north in
both pixel and tangent-plane coordinates. -/
noncomputable def trackDemo : Track :=
  Track.build [0, 1, 2] [0, 0, 0] [0, 1, 2] [1, 1, 1] [10, 10, 10]
    [20, 20, 20] [0, 0, 0] [0, 1, 2]

/-- Demonstration identification thresholds: all four limits set to 1. -/
noncomputable def cfgDemo : IdentCfg :=
  { rm_max := 1, dtm_max := 1, dpa_max := 1, fdr_max := 1 }

lemma atan2_zero_one : atan2 0 1 = 0 := by
  have h : (⟨1, 0⟩ : ℂ) = 1 := by
    apply Complex.ext <;> simp
  simp only [atan2]
  rw [h, Complex.arg_one]

lemma fmod_zero (b : ℝ) : fmod 0 b = 0 := by
  simp [fmod]

lemma polyfit1_demo_zero : polyfit1 ([-1, 0, 1] : List ℝ) [0, 0, 0] = (0, 0) := by
  norm_num [polyfit1, psum, wsum]

lemma polyfit1_demo_lin : polyfit1 ([-1, 0, 1] : List ℝ) [0, 1, 2] = (1, 1) := by
  norm_num [polyfit1, psum, wsum]

lemma polyfit2_demo_zero : polyfit2 ([0, 1, 2] : List ℝ) [0, 0, 0] = (0, 0, 0) := by
  norm_num [polyfit2, psum, wsum, det3]

lemma polyfit2_demo_lin : polyfit2 ([0, 1, 2] : List ℝ) [0, 1, 2] = (0, 1, 0) := by
  norm_num [polyfit2, psum, wsum, det3]

lemma trackDemo_tmin : trackDemo.tmin = 0 := by
  norm_num [trackDemo, Track.build, listMin, min_def]

lemma trackDemo_tmax : trackDemo.tmax = 2 := by
  norm_num [trackDemo, Track.build, listMax, max_def]

lemma trackDemo_tmid : trackDemo.tmid = 1 := by
  norm_num [trackDemo, Track.build, listMin, listMax, min_def, max_def]

lemma trackDemo_rx0 : trackDemo.rx0 = 0 := by
  have h : ([0, 1, 2] : List ℝ).map
      (fun a => a - 0.5 * (listMax [0, 1, 2] + listMin [0, 1, 2])) = [-1, 0, 1] := by
    norm_num [listMin, listMax, min_def, max_def]
  simp only [trackDemo, Track.build, h, polyfit1_demo_zero]

lemma trackDemo_ry0 : trackDemo.ry0 = 1 := by
  have h : ([0, 1, 2] : List ℝ).map
      (fun a => a - 0.5 * (listMax [0, 1, 2] + listMin [0, 1, 2])) = [-1, 0, 1] := by
    norm_num [listMin, listMax, min_def, max_def]
  simp only [trackDemo, Track.build, h, polyfit1_demo_lin]

lemma trackDemo_pa : trackDemo.pa = 0 := by
  have h : ([0, 1, 2] : List ℝ).map
      (fun a => a - 0.5 * (listMax [0, 1, 2] + listMin [0, 1, 2])) = [-1, 0, 1] := by
    norm_num [listMin, listMax, min_def, max_def]
  simp only [trackDemo, Track.build, h, polyfit1_demo_zero, polyfit1_demo_lin]
  rw [show (-(0 : ℝ)) = 0 by norm_num, atan2_zero_one, fmod_zero]

lemma trackDemo_dr : trackDemo.dr = 2 := by
  have h : ([0, 1, 2] : List ℝ).map
      (fun a => a - 0.5 * (listMax [0, 1, 2] + listMin [0, 1, 2])) = [-1, 0, 1] := by
    norm_num [listMin, listMax, min_def, max_def]
  simp only [trackDemo, Track.build, h, polyfit1_demo_zero, polyfit1_demo_lin,
    trackDemo_tmin, trackDemo_tmax]
  norm_num [listMin, listMax, min_def, max_def, Real.sqrt_one]

lemma pv_predDemo : predDemo.position_and_velocity 1 2 = some (0, 1, 1, 0, 2) := by
  simp only [Prediction.position_and_velocity, predDemo]
  rw [if_neg (by norm_num)]
  simp only [polyfit2_demo_zero, polyfit2_demo_lin, polyder2, polyval2, polyval1]
  norm_num [Real.sqrt_one, atan2_zero_one, fmod_zero]

lemma residual_predDemo : predDemo.residual 1 0 1 = some (0, 0) := by
  simp only [Prediction.residual, predDemo]
  rw [if_neg (by norm_num)]
  simp only [polyfit2_demo_zero, polyfit2_demo_lin, polyder2, polyval2, polyval1]
  norm_num [Real.sqrt_one, atan2_zero_one, Real.cos_zero, Real.sin_zero]

lemma angle_diff_zero_zero : angle_difference 0 0 = 0 := by
  norm_num [angle_difference, Real.cos_zero, Real.sin_zero, Real.arccos_one]

lemma accept_demo : accept cfgDemo trackDemo predDemo := by
  simp only [accept, trackDemo_tmid, trackDemo_tmin, trackDemo_tmax,
    trackDemo_rx0, trackDemo_ry0]
  rw [show (2 : ℝ) - 0 = 2 by norm_num]
  rw [pv_predDemo, residual_predDemo]
  refine ⟨by norm_num [cfgDemo], by norm_num [cfgDemo], ?_, ?_⟩
  · rw [trackDemo_pa, angle_diff_zero_zero]
    norm_num [cfgDemo]
  · rw [trackDemo_dr]
    norm_num [cfgDemo]

lemma accept_demo2 : accept cfgDemo trackDemo predDemo2 := by
  have hpv : predDemo2.position_and_velocity 1 2 = some (0, 1, 1, 0, 2) := pv_predDemo
  have hres : predDemo2.residual 1 0 1 = some (0, 0) := residual_predDemo
  simp only [accept, trackDemo_tmid, trackDemo_tmin, trackDemo_tmax,
    trackDemo_rx0, trackDemo_ry0]
  rw [show (2 : ℝ) - 0 = 2 by norm_num]
  rw [hpv, hres]
  refine ⟨by norm_num [cfgDemo], by norm_num [cfgDemo], ?_, ?_⟩
  · rw [trackDemo_pa, angle_diff_zero_zero]
    norm_num [cfgDemo]
  · rw [trackDemo_dr]
    norm_num [cfgDemo]

open Classical in
lemma loopSatno_cons (cfg : IdentCfg) (tr : Track) (p : Prediction)
    (rest : List Prediction) (d : ℕ) :
    loopSatno cfg tr (p :: rest) d =
      loopSatno cfg tr rest (if accept cfg tr p then p.satno else d) := rfl

lemma loopSatno_no_accept (cfg : IdentCfg) (tr : Track) (preds : List Prediction)
    (d : ℕ) (h : ∀ p ∈ preds, ¬ accept cfg tr p) :
    loopSatno cfg tr preds d = d := by
  induction preds generalizing d with
  | nil => rfl
  | cons p rest ih =>
      rw [loopSatno_cons, if_neg (h p (List.mem_cons_self p rest))]
      exact ih d (fun q hq => h q (List.mem_cons_of_mem p hq))

lemma loopSatno_append (cfg : IdentCfg) (tr : Track) (l1 l2 : List Prediction)
    (d : ℕ) :
    loopSatno cfg tr (l1 ++ l2) d = loopSatno cfg tr l2 (loopSatno cfg tr l1 d) :=
  List.foldl_append _ _ _ _

/-- Claim C6: for every pair of angles, `angle_difference` computes the
shortest-arc angle between them via the unit-vector dot-product formula
(equivalently `arccos (cos (a - b))`), its result lies in `[0, π]`,
`angle_difference a a = 0`, and `angle_difference a (a + π) = π`. -/
theorem c6_angle_difference_shortest_arc (a b : ℝ) :
    angle_difference a b = Real.arccos (Real.cos (a - b)) ∧
    0 ≤ angle_difference a b ∧ angle_difference a b ≤ Real.pi ∧
    angle_difference a a = 0 ∧ angle_difference a (a + Real.pi) = Real.pi := by
  refine ⟨?_, Real.arccos_nonneg _, Real.arccos_le_pi _, ?_, ?_⟩
  · simp only [angle_difference, Real.cos_sub]
  · simp only [angle_difference]
    rw [show Real.cos a * Real.cos a + Real.sin a * Real.sin a = 1 by
      nlinarith [Real.sin_sq_add_cos_sq a]]
    exact Real.arccos_one
  · simp only [angle_difference, Real.cos_add_pi, Real.sin_add_pi]
    rw [show Real.cos a * -Real.cos a + Real.sin a * -Real.sin a = -1 by
      nlinarith [Real.sin_sq_add_cos_sq a]]
    exact Real.arccos_neg_one

/-- Claim C7: deprojecting the reference direction onto its own tangent
plane yields the zero offset, for every reference direction. -/
theorem c7_deproject_reference_is_zero (l0 b0 : ℝ) :
    deproject l0 b0 l0 b0 = (0, 0) :=
  deproject_self l0 b0

/-- Claim C5, evaluation at the failing input: for a prediction moving
straight north in the tangent plane at 1 degree per second and an observed
position exactly 1 degree ahead along the track, `Prediction.residual`
returns `(dtm, wm) = (0, 1)`, although the along-track time offset of this
configuration is 1 second and its cross-track offset is 0 — the two
returned components respond to the cross-track and along-track
displacements respectively, swapped relative to the claim. -/
theorem c5_residual_components_swapped :
    Prediction.residual predDemo 1 0 2 = some (0, 1) := by
  simp only [Prediction.residual, predDemo]
  rw [if_neg (by norm_num)]
  simp only [polyfit2_demo_zero, polyfit2_demo_lin, polyder2, polyval2, polyval1]
  norm_num [Real.sqrt_one, atan2_zero_one, Real.cos_zero, Real.sin_zero]

/-- Claim C3, counterexample: with exactly 2 ephemeris samples the claim
demands a linear-model fit, but `position_and_velocity` and `residuals`
both return the NaN sentinel (`none`); and with exactly 3 samples the
claim demands a quadratic model, but `residuals` takes its linear branch. -/
theorem c3_counterexample :
    predShort.t.length = 2 ∧
    Prediction.position_and_velocity predShort 1 2 = none ∧
    residuals trackDemo predShort = none ∧
    predDemo.t.length = 3 ∧
    residuals trackDemo predDemo = some (residualsLin trackDemo predDemo) := by
  refine ⟨by norm_num [predShort], ?_, ?_, by norm_num [predDemo], ?_⟩
  · simp [Prediction.position_and_velocity, predShort]
  · simp [residuals, predShort]
  · simp [residuals, predDemo]

/-- Claim C3, amended: `position_and_velocity` and `residual` fit a
quadratic model when at least 3 samples are available and otherwise return
the NaN sentinel (`none`) with no linear fallback; the `residuals` helper
fits a quadratic only when more than 3 samples are available, a linear
model when exactly 3 are, and returns the NaN sentinel when 2 or fewer
are.  In every case insufficient data yields a sentinel value, not an
exception. -/
theorem c3_degree_selection (p : Prediction) (o : Track) (t dt t0 a b : ℝ) :
    (Prediction.position_and_velocity p t dt = none ↔ p.t.length < 3) ∧
    (Prediction.residual p t0 a b = none ↔ p.t.length < 3) ∧
    (residuals o p = none ↔ p.t.length ≤ 2) ∧
    (3 < p.t.length → residuals o p = some (residualsQuad o p)) ∧
    (p.t.length = 3 → residuals o p = some (residualsLin o p)) := by
  refine ⟨?_, ?_, ?_, ?_, ?_⟩
  · constructor
    · intro h
      by_contra hlen
      rw [Prediction.position_and_velocity, if_neg hlen] at h
      exact Option.some_ne_none _ h
    · intro h
      rw [Prediction.position_and_velocity, if_pos h]
  · constructor
    · intro h
      by_contra hlen
      rw [Prediction.residual, if_neg hlen] at h
      exact Option.some_ne_none _ h
    · intro h
      rw [Prediction.residual, if_pos h]
  · constructor
    · intro h
      by_contra hlen
      push_neg at hlen
      rcases Nat.lt_or_ge 3 p.t.length with h3 | h3
      · rw [residuals, if_pos h3] at h
        exact Option.some_ne_none _ h
      · rw [residuals, if_neg (by omega), if_pos (by omega)] at h
        exact Option.some_ne_none _ h
    · intro h
      rw [residuals, if_neg (by omega), if_neg (by omega)]
  · intro h
    rw [residuals, if_pos h]
  · intro h
    rw [residuals, if_neg (by omega), if_pos (by omega)]

/-- Claim C3, witness: the three sample counts 4, 3 and 2 exercise the
quadratic, linear and unavailable paths of `residuals`, and the 2-sample
prediction gives no `position_and_velocity` model. -/
theorem c3_degree_selection_witness :
    residuals trackDemo predLong = some (residualsQuad trackDemo predLong) ∧
    residuals trackDemo predDemo = some (residualsLin trackDemo predDemo) ∧
    residuals trackDemo predShort = none ∧
    Prediction.position_and_velocity predShort 0 0 = none := by
  refine ⟨(c3_degree_selection predLong trackDemo 0 0 0 0 0).2.2.2.1
      (by norm_num [predLong]),
    (c3_degree_selection predDemo trackDemo 0 0 0 0 0).2.2.2.2
      (by norm_num [predDemo]),
    ((c3_degree_selection predShort trackDemo 0 0 0 0 0).2.2.1).mpr
      (by norm_num [predShort]),
    ((c3_degree_selection predShort trackDemo 0 0 0 0 0).1).mpr
      (by norm_num [predShort])⟩

/-- Claim C10: a prediction with fewer than 3 ephemeris samples gets the
NaN sentinel (`none`) from both `position_and_velocity` and `residual`;
all four threshold comparisons on those values are false, so the
acceptance test fails and the identification loop leaves the default id
untouched for any list of such predictions. -/
theorem c10_short_prediction_never_accepted (p : Prediction)
    (hp : p.t.length < 3) (t dt t0 a b : ℝ) (cfg : IdentCfg) (tr : Track)
    (preds : List Prediction) (hpreds : ∀ q ∈ preds, q.t.length < 3) (d : ℕ) :
    Prediction.position_and_velocity p t dt = none ∧
    Prediction.residual p t0 a b = none ∧
    ¬ accept cfg tr p ∧ loopSatno cfg tr preds d = d := by
  have hpv : ∀ (q : Prediction), q.t.length < 3 → ∀ u v,
      Prediction.position_and_velocity q u v = none := by
    intro q hq u v
    rw [Prediction.position_and_velocity, if_pos hq]
  have hres : ∀ (q : Prediction), q.t.length < 3 → ∀ u v w,
      Prediction.residual q u v w = none := by
    intro q hq u v w
    rw [Prediction.residual, if_pos hq]
  have hacc : ∀ (q : Prediction), q.t.length < 3 → ¬ accept cfg tr q := by
    intro q hq
    simp [accept, hpv q hq, hres q hq]
  exact ⟨hpv p hp t dt, hres p hp t0 a b, hacc p hp,
    loopSatno_no_accept cfg tr preds d (fun q hq => hacc q (hpreds q hq))⟩

/-- Claim C10, witness: the 2-sample prediction is never accepted and does
not change the placeholder id. -/
theorem c10_witness :
    Prediction.position_and_velocity predShort 1 2 = none ∧
    Prediction.residual predShort 1 0 1 = none ∧
    ¬ accept cfgDemo trackDemo predShort ∧
    loopSatno cfgDemo trackDemo [predShort] 90000 = 90000 :=
  c10_short_prediction_never_accepted predShort (by norm_num [predShort]) 1 2 1 0 1
    cfgDemo trackDemo [predShort]
    (by
      intro q hq
      rw [List.mem_singleton] at hq
      subst hq
      norm_num [predShort]) 90000

/-- Claim C1: a prediction is accepted exactly when all four residual
measures exist and are strictly within the four configured limits (the
conjunction of the four comparisons), and the id assigned by the loop is
that of the last passing prediction in iteration order (the default when
none passes). -/
theorem c1_accept_iff_and_last_wins (cfg : IdentCfg) (tr : Track)
    (preds : List Prediction) (d : ℕ) :
    (∀ p : Prediction, accept cfg tr p ↔
      ∃ u v drdtc pac drc dtm rm,
        Prediction.position_and_velocity p tr.tmid (tr.tmax - tr.tmin) =
          some (u, v, drdtc, pac, drc) ∧
        Prediction.residual p tr.tmid tr.rx0 tr.ry0 = some (dtm, rm) ∧
        |dtm| < cfg.dtm_max ∧ |rm| < cfg.rm_max ∧
        |angle_difference tr.pa pac * 180 / Real.pi| < cfg.dpa_max ∧
        |(drc / tr.dr - 1) * 100| < cfg.fdr_max) ∧
    ((∀ p ∈ preds, ¬ accept cfg tr p) → loopSatno cfg tr preds d = d) ∧
    (∀ (l1 : List Prediction) (p : Prediction) (l2 : List Prediction),
      preds = l1 ++ p :: l2 → accept cfg tr p → (∀ q ∈ l2, ¬ accept cfg tr q) →
      loopSatno cfg tr preds d = p.satno) := by
  refine ⟨fun p => ?_, fun h => loopSatno_no_accept cfg tr preds d h, ?_⟩
  · cases hpv : Prediction.position_and_velocity p tr.tmid (tr.tmax - tr.tmin) with
    | none => simp [accept, hpv]
    | some v5 =>
        obtain ⟨u, v, drdtc, pac, drc⟩ := v5
        cases hres : Prediction.residual p tr.tmid tr.rx0 tr.ry0 with
        | none => simp [accept, hpv, hres]
        | some w2 =>
            obtain ⟨dtm, rm⟩ := w2
            simp only [accept, hpv, hres]
            constructor
            · intro h
              exact ⟨u, v, drdtc, pac, drc, dtm, rm, rfl, rfl, h.1, h.2.1, h.2.2.1, h.2.2.2⟩
            · rintro ⟨u1, v1, d1, p1, r1, t1, m1, h1, h2, h3, h4, h5, h6⟩
              simp only [Option.some.injEq, Prod.mk.injEq] at h1 h2
              obtain ⟨hu, hv, hd, hp1, hr⟩ := h1
              obtain ⟨ht, hm⟩ := h2
              subst hp1
              subst hr
              subst ht
              subst hm
              exact ⟨h3, h4, h5, h6⟩
  · intro l1 p l2 heq hacc hno
    rw [heq, loopSatno_append, loopSatno_cons, if_pos hacc,
      loopSatno_no_accept cfg tr l2 _ hno]

/-- Claim C1, witness: both demonstration predictions pass for the
demonstration track, and the loop assigns the id of the last one. -/
theorem c1_witness :
    accept cfgDemo trackDemo predDemo ∧ accept cfgDemo trackDemo predDemo2 ∧
    loopSatno cfgDemo trackDemo [predDemo, predDemo2] 90000 = 22222 := by
  refine ⟨accept_demo, accept_demo2, ?_⟩
  have h := (c1_accept_iff_and_last_wins cfgDemo trackDemo [predDemo, predDemo2]
      90000).2.2 [predDemo] predDemo2 [] rfl accept_demo2 (by simp)
  exact h

/-- Demonstration frame reference with trivial external collaborators. -/
noncomputable def ffDemo : FourFrameRef :=
  { mjd := 59662, mjdToIsot := fun _ => "2022-03-24T18:53:20.708",
    pixelToSky := fun x y => (x, y) }

lemma identifyFrom_length (cfg : IdentCfg) (ff : FourFrameRef)
    (preds : List Prediction) :
    ∀ (j : ℕ) (tracks : List Track),
      (identifyFrom cfg ff preds j tracks).length = tracks.length := by
  intro j tracks
  induction tracks generalizing j with
  | nil => rfl
  | cons tr rest ih => simp [identifyFrom, ih]

lemma identifyFrom_get (cfg : IdentCfg) (ff : FourFrameRef)
    (preds : List Prediction) :
    ∀ (tracks : List Track) (j i : ℕ) (hi : i < tracks.length)
      (hi2 : i < (identifyFrom cfg ff preds j tracks).length),
      (identifyFrom cfg ff preds j tracks).get ⟨i, hi2⟩ =
        Observation.make ff (tracks.get ⟨i, hi⟩).tmid (tracks.get ⟨i, hi⟩).x0
          (tracks.get ⟨i, hi⟩).y0 4171
          (loopSatno cfg (tracks.get ⟨i, hi⟩) preds (90000 + (j + i)))
          "22 500A" := by
  intro tracks
  induction tracks with
  | nil =>
      intro j i hi hi2
      exact absurd hi (by simp)
  | cons tr rest ih =>
      intro j i hi hi2
      cases i with
      | zero => simp [identifyFrom]
      | succ k =>
          have hk : k < rest.length := by
            simpa using hi
          have hk2 : k < (identifyFrom cfg ff preds (j + 1) rest).length := by
            rw [identifyFrom_length]
            exact hk
          have := ih (j + 1) k hk hk2
          simp only [identifyFrom, List.get_cons_succ]
          rw [this]
          congr 2
          omega

/-- Claim C4: the identification pass yields exactly one observation per
track; the observation for the i-th track records its mid-time position,
site 4171, the id computed by the inner loop from the default `90000 + i`,
and the fixed catalog tag `"22 500A"`; in particular when no prediction is
accepted for that track the reported id is the placeholder `90000 + i`. -/
theorem c4_every_track_reportable (cfg : IdentCfg) (ff : FourFrameRef)
    (preds : List Prediction) (tracks : List Track) :
    (identify cfg ff preds tracks).length = tracks.length ∧
    ∀ (i : ℕ) (hi : i < tracks.length)
      (hi2 : i < (identify cfg ff preds tracks).length),
      (identify cfg ff preds tracks).get ⟨i, hi2⟩ =
        Observation.make ff (tracks.get ⟨i, hi⟩).tmid (tracks.get ⟨i, hi⟩).x0
          (tracks.get ⟨i, hi⟩).y0 4171
          (loopSatno cfg (tracks.get ⟨i, hi⟩) preds (90000 + i)) "22 500A" ∧
      ((∀ p ∈ preds, ¬ accept cfg (tracks.get ⟨i, hi⟩) p) →
        ((identify cfg ff preds tracks).get ⟨i, hi2⟩).norad = 90000 + i ∧
        ((identify cfg ff preds tracks).get ⟨i, hi2⟩).cospar = "22 500A") := by
  refine ⟨identifyFrom_length cfg ff preds 0 tracks, fun i hi hi2 => ?_⟩
  have h := identifyFrom_get cfg ff preds tracks 0 i hi hi2
  rw [show 0 + i = i by omega] at h
  have h2 : (identify cfg ff preds tracks).get ⟨i, hi2⟩ =
      Observation.make ff (tracks.get ⟨i, hi⟩).tmid (tracks.get ⟨i, hi⟩).x0
        (tracks.get ⟨i, hi⟩).y0 4171
        (loopSatno cfg (tracks.get ⟨i, hi⟩) preds (90000 + i)) "22 500A" := h
  refine ⟨h2, fun hnone => ?_⟩
  rw [h2, loopSatno_no_accept cfg _ preds _ hnone]
  exact ⟨rfl, rfl⟩

/-- Claim C4, witness: with no predictions at all, the single demonstration
track still yields exactly one observation, carrying the placeholder id
90000 and catalog tag `"22 500A"`. -/
theorem c4_witness :
    (identify cfgDemo ffDemo [] [trackDemo]).map Observation.norad = [90000] ∧
    (identify cfgDemo ffDemo [] [trackDemo]).map Observation.cospar = ["22 500A"] := by
  have hc := c4_every_track_reportable cfgDemo ffDemo [] [trackDemo]
  have hget := (hc.2 0 (by norm_num) (by rw [hc.1]; norm_num)).2 (by simp)
  have h1 : (Observation.make ffDemo trackDemo.tmid trackDemo.x0 trackDemo.y0 4171
      90000 "22 500A").norad = 90000 + 0 := hget.1
  have h2 : (Observation.make ffDemo trackDemo.tmid trackDemo.x0 trackDemo.y0 4171
      90000 "22 500A").cospar = "22 500A" := hget.2
  have hres : identify cfgDemo ffDemo [] [trackDemo] =
      [Observation.make ffDemo trackDemo.tmid trackDemo.x0 trackDemo.y0 4171
        90000 "22 500A"] := rfl
  constructor
  · rw [hres, List.map_cons, List.map_nil, h1]
  · rw [hres, List.map_cons, List.map_nil, h2]

/-- Demonstration significant point sitting exactly on the demonstration
line. -/
noncomputable def hpDemo1 : HoughPoint :=
  { x := 0, y := 0, znum := 0, t := 0, zmax := 1, ra := 10, dec := 20,
    rx := 0, ry := 0 }

/-- Demonstration significant point 10 pixels away from the line in x. -/
noncomputable def hpDemo2 : HoughPoint :=
  { x := 10, y := 0, znum := 0, t := 0, zmax := 1, ra := 10, dec := 20,
    rx := 0, ry := 0 }

/-- Demonstration significant point 10 pixels away from the line in y. -/
noncomputable def hpDemo3 : HoughPoint :=
  { x := 0, y := 10, znum := 0, t := 0, zmax := 1, ra := 10, dec := 20,
    rx := 0, ry := 0 }

/-- Demonstration detected line through the origin along the frame axis,
reported with 5 votes. -/
noncomputable def hlDemo : HLine :=
  { ax := 0, ay := 0, az := 0, bx := 0, byv := 0, bz := 1, n := 5 }

lemma sqrt_hundred : Real.sqrt 100 = 10 := by
  rw [show (100 : ℝ) = 10 ^ 2 by norm_num]
  exact Real.sqrt_sq (by norm_num)

lemma lineInliers_demo :
    lineInliers 1 hlDemo [hpDemo1, hpDemo2, hpDemo3] = [hpDemo1] := by
  have h1 : Real.sqrt (((0 : ℝ) - (0 + ((0 : ℝ) - 0) / 1 * 0)) ^ 2 +
      ((0 : ℝ) - (0 + ((0 : ℝ) - 0) / 1 * 0)) ^ 2) < 1 := by
    norm_num
  have h2 : ¬ Real.sqrt (((10 : ℝ) - (0 + ((0 : ℝ) - 0) / 1 * 0)) ^ 2 +
      ((0 : ℝ) - (0 + ((0 : ℝ) - 0) / 1 * 0)) ^ 2) < 1 := by
    rw [show ((10 : ℝ) - (0 + ((0 : ℝ) - 0) / 1 * 0)) ^ 2 +
        ((0 : ℝ) - (0 + ((0 : ℝ) - 0) / 1 * 0)) ^ 2 = 100 by norm_num]
    rw [sqrt_hundred]
    norm_num
  have h3 : ¬ Real.sqrt (((0 : ℝ) - (0 + ((0 : ℝ) - 0) / 1 * 0)) ^ 2 +
      ((10 : ℝ) - (0 + ((0 : ℝ) - 0) / 1 * 0)) ^ 2) < 1 := by
    rw [show ((0 : ℝ) - (0 + ((0 : ℝ) - 0) / 1 * 0)) ^ 2 +
        ((10 : ℝ) - (0 + ((0 : ℝ) - 0) / 1 * 0)) ^ 2 = 100 by norm_num]
    rw [sqrt_hundred]
    norm_num
  simp only [lineInliers, hpDemo1, hpDemo2, hpDemo3, hlDemo, List.filter,
    decide_eq_true_eq]
  norm_num [sqrt_hundred]

lemma find_tracks_demo :
    find_tracks_by_hough3d 1 3 [hpDemo1, hpDemo2, hpDemo3] [hlDemo] =
      [Track.build [0] [0] [0] [1] [10] [20] [0] [0]] := by
  rw [find_tracks_by_hough3d, if_neg (by norm_num)]
  rw [List.filterMap]
  simp only [lineInliers_demo]
  norm_num [hpDemo1, List.filterMap]

/-- Claim C2, counterexample: with minimum track size 3 configured, a line
whose surviving inlier set has a single point still produces a `Track`
(the source only checks `np.sum(c) > 0`), so a track with inlier count 1,
below the configured minimum, is returned. -/
theorem c2_counterexample :
    ¬ ∀ tr ∈ find_tracks_by_hough3d 1 3 [hpDemo1, hpDemo2, hpDemo3] [hlDemo],
      3 ≤ tr.n := by
  intro h
  have hmem : Track.build [0] [0] [0] [1] [10] [20] [0] [0] ∈
      find_tracks_by_hough3d 1 3 [hpDemo1, hpDemo2, hpDemo3] [hlDemo] := by
    rw [find_tracks_demo]
    exact List.mem_singleton_self _
  have h1 := h _ hmem
  have h2 : (Track.build [0] [0] [0] [(1 : ℝ)] [10] [20] [0] [0]).n = 1 := rfl
  omega

/-- Claim C2, amended: the track finder drops a candidate line only when no
point at all survives the inlier test — every returned track has at least
one inlier (not at least the configured minimum), and a line with no
surviving points is silently skipped rather than raising. -/
theorem c2_inlier_count (trkrmin ntrkmin : ℝ) (pts : List HoughPoint)
    (lines : List HLine) :
    (∀ tr ∈ find_tracks_by_hough3d trkrmin ntrkmin pts lines, 1 ≤ tr.n) ∧
    (∀ (L : HLine) (rest : List HLine), lineInliers trkrmin L pts = [] →
      find_tracks_by_hough3d trkrmin ntrkmin pts (L :: rest) =
        find_tracks_by_hough3d trkrmin ntrkmin pts rest) := by
  constructor
  · intro tr htr
    rw [find_tracks_by_hough3d] at htr
    by_cases hlen : (pts.length : ℝ) < ntrkmin
    · rw [if_pos hlen] at htr
      simp at htr
    · rw [if_neg hlen] at htr
      rw [List.mem_filterMap] at htr
      obtain ⟨L, _, hL⟩ := htr
      by_cases hc : 0 < (lineInliers trkrmin L pts).length
      · rw [if_pos hc, Option.some_inj] at hL
        have hn : tr.n = ((lineInliers trkrmin L pts).map (fun q => q.x)).length := by
          rw [← hL]
          rfl
        rw [List.length_map] at hn
        omega
      · rw [if_neg hc] at hL
        exact absurd hL (Option.noConfusion)
  · intro L rest hempty
    rw [find_tracks_by_hough3d, find_tracks_by_hough3d]
    by_cases hlen : (pts.length : ℝ) < ntrkmin
    · rw [if_pos hlen, if_pos hlen]
    · rw [if_neg hlen, if_neg hlen, List.filterMap_cons]
      simp only [hempty, List.length_nil]
      rw [if_neg (by omega)]

/-- Claim C2, witness: the single-inlier track returned in the
demonstration run indeed has at least one inlier. -/
theorem c2_witness :
    1 ≤ (Track.build [0] [0] [0] [(1 : ℝ)] [10] [20] [0] [0]).n :=
  (c2_inlier_count 1 3 [hpDemo1, hpDemo2, hpDemo3] [hlDemo]).1 _
    (by
      rw [find_tracks_demo]
      exact List.mem_singleton_self _)

/-- Demonstration pixel comfortably above the significance threshold. -/
def pxPass : Pixel :=
  { x := 0, y := 0, zavg := 0, zstd := 1, zmax := 6, znum := 0 }

/-- Demonstration pixel whose unregularised significance exceeds 5 while
the regularised one does not. -/
def pxBorder : Pixel :=
  { x := 1, y := 0, zavg := 0, zstd := 1, zmax := 5 + 4 / 1000000000, znum := 0 }

/-- One-pixel frame around the borderline pixel. -/
def ffBorder : FourFrameData :=
  { pixels := [pxBorder], dt := [1 / 4] }

/-- One-pixel frame around the passing pixel. -/
def ffPass : FourFrameData :=
  { pixels := [pxPass], dt := [1 / 4] }

/-- Claim C8, counterexample: the source thresholds
`(zmax - zavg) / (zstd + 1e-9)`, not `(zmax - zavg) / zstd`; a pixel whose
unregularised ratio exceeds the threshold 5 is nevertheless not selected. -/
theorem c8_counterexample :
    5 < (pxBorder.zmax - pxBorder.zavg) / pxBorder.zstd ∧
    significantPoints ffBorder 5 = [] := by
  constructor
  · norm_num [pxBorder]
  · have h : ¬ (5 : ℚ) < zsig pxBorder := by
      norm_num [zsig, pxBorder]
    simp [significantPoints, ffBorder, List.filter_cons, decide_eq_true_eq, h]

/-- Claim C8, amended: a point is produced exactly for the pixels whose
regularised significance `(zmax - zavg) / (zstd + 1e-9)` exceeds the
threshold, and it pairs the pixel coordinates with the time offset of the
pixel's contributing frame, looked up in the `dt` table by frame index. -/
theorem c8_selected_iff (ff : FourFrameData) (sigma : ℚ) (q : SigPoint) :
    q ∈ significantPoints ff sigma ↔
      ∃ px ∈ ff.pixels,
        sigma < (px.zmax - px.zavg) / (px.zstd + 1 / 1000000000) ∧
        q = { x := px.x, y := px.y, t := ff.dt.getD px.znum 0 } := by
  simp only [significantPoints, List.mem_map, List.mem_filter,
    decide_eq_true_eq, zsig]
  constructor
  · rintro ⟨px, ⟨hmem, hsig⟩, hq⟩
    exact ⟨px, hmem, hsig, hq.symm⟩
  · rintro ⟨px, hmem, hsig, hq⟩
    exact ⟨px, ⟨hmem, hsig⟩, hq.symm⟩

/-- Claim C8, witness: the passing pixel is selected and paired with its
frame's time offset. -/
theorem c8_witness :
    ({ x := 0, y := 0, t := 1 / 4 } : SigPoint) ∈ significantPoints ffPass 5 :=
  (c8_selected_iff ffPass 5 _).mpr
    ⟨pxPass, by simp [ffPass], by norm_num [pxPass], by norm_num [pxPass, ffPass]⟩

lemma natDigitsRev_length_le :
    ∀ (fuel n k : ℕ), n ≤ fuel → n < 10 ^ k → (natDigitsRev fuel n).length ≤ k := by
  intro fuel
  induction fuel with
  | zero =>
      intro n k hn _
      interval_cases n
      simp [natDigitsRev]
  | succ f ih =>
      intro n k hn hk
      match n with
      | 0 => simp [natDigitsRev]
      | m + 1 =>
          have hk1 : 1 ≤ k := by
            by_contra hcon
            push_neg at hcon
            interval_cases k
            omega
          have hdl := Nat.div_lt_self (Nat.succ_pos m) (by norm_num : 1 < 10)
          have hdiv : (m + 1) / 10 ≤ f := by omega
          have hlt : (m + 1) / 10 < 10 ^ (k - 1) := by
            rw [Nat.div_lt_iff_lt_mul (by norm_num)]
            calc m + 1 < 10 ^ k := hk
            _ = 10 ^ (k - 1) * 10 := by
                rw [← Nat.pow_succ]
                congr 1
                omega
          have hih := ih ((m + 1) / 10) (k - 1) hdiv hlt
          simp only [natDigitsRev, List.length_cons]
          omega

lemma natChars_length_le (n k : ℕ) (hk : 1 ≤ k) (h : n < 10 ^ k) :
    (natChars n).length ≤ k := by
  rw [natChars, List.length_map, natDigits]
  by_cases h0 : n = 0
  · simp [h0, hk]
  · rw [if_neg h0, List.length_reverse]
    exact natDigitsRev_length_le n n k le_rfl h

lemma padz_length (w : ℕ) (s : List Char) (h : s.length ≤ w) :
    (padz w s).length = w := by
  rw [padz, List.length_append, List.length_replicate]
  omega

lemma digitChar_ne_dot (d : ℕ) : Nat.digitChar d ≠ '.' := by
  by_cases h : d < 16
  · interval_cases d <;> decide
  · push_neg at h
    unfold Nat.digitChar
    iterate 16 rw [if_neg (by omega)]
    decide

lemma padz_natChars_no_dot (w n : ℕ) :
    ∀ c ∈ padz w (natChars n), (c != '.') = true := by
  intro c hc
  rw [padz, List.mem_append] at hc
  rcases hc with hc | hc
  · rw [List.eq_of_mem_replicate hc]
    decide
  · rw [natChars, List.mem_map] at hc
    obtain ⟨d, _, hd⟩ := hc
    rw [← hd]
    simp [digitChar_ne_dot d]

lemma filter_dot_padz (w n : ℕ) (l : List Char) :
    (padz w (natChars n) ++ l).filter (fun c => c != '.') =
      padz w (natChars n) ++ l.filter (fun c => c != '.') := by
  rw [List.filter_append, List.filter_eq_self.mpr (padz_natChars_no_dot w n)]

lemma filter_dot_cons_keep (c : Char) (h : (c != '.') = true) (l : List Char) :
    (c :: l).filter (fun x => x != '.') = c :: l.filter (fun x => x != '.') :=
  List.filter_cons_of_pos h

lemma filter_dot_cons_drop (l : List Char) :
    ('.' :: l).filter (fun x => x != '.') = l.filter (fun x => x != '.') :=
  List.filter_cons_of_neg (by decide)

/-- Numerator of the rounded milli-minute rendering of the right
ascension's residual minutes, as printed by `%06.3f` in
`format_position`. -/
def raMilliMin {K : Type} [LinearOrderedField K] [FloorRing K] (ra : K) : ℕ :=
  (⌊(60 * ra / 15 - 60 * ((⌊ra / 15⌋ : ℤ) : K)) * 1000 + 1 / 2⌋).toNat

/-- Numerator of the rounded centi-minute rendering of the declination's
residual minutes, as printed by `%05.2f` in `format_position`. -/
def deCentiMin {K : Type} [LinearOrderedField K] [FloorRing K] (de : K) : ℕ :=
  (⌊(60 * |de| - 60 * ((⌊|de|⌋ : ℤ) : K)) * 100 + 1 / 2⌋).toNat

lemma format_position_eq {K : Type} [LinearOrderedField K] [FloorRing K]
    (ra de : K) :
    format_position ra de = String.mk (
      padz 2 (natChars (⌊ra / 15⌋).toNat) ++
      (padz 2 (natChars (raMilliMin ra / 1000)) ++
       padz 3 (natChars (raMilliMin ra % 1000)) ++
      ((if de < 0 then '-' else '+') ::
       (padz 2 (natChars (⌊|de|⌋).toNat) ++
        (padz 2 (natChars (deCentiMin de / 100)) ++
         padz 2 (natChars (deCentiMin de % 100))))))) := by
  have hra : (60 : K) * ra / 15 / 60 = ra / 15 := by ring
  have hde : (60 : K) * |de| / 60 = |de| := by ring
  have hsign : ((if de < 0 then '-' else '+') != '.') = true := by
    by_cases h : de < 0
    · rw [if_pos h]
      decide
    · rw [if_neg h]
      decide
  simp only [format_position, fmtFix, hra, hde]
  norm_num only
  congr 1
  simp only [List.append_assoc, List.cons_append]
  rw [filter_dot_padz, filter_dot_padz, filter_dot_cons_drop,
    filter_dot_padz, filter_dot_cons_keep _ hsign, filter_dot_padz, filter_dot_padz,
    filter_dot_cons_drop,
    List.filter_eq_self.mpr (padz_natChars_no_dot _ _)]
  simp only [raMilliMin, deCentiMin]

lemma stringLength_mk (l : List Char) : (String.mk l).length = l.length := rfl

lemma raMilliMin_le {K : Type} [LinearOrderedField K] [FloorRing K] (ra : K) :
    raMilliMin ra ≤ 60000 := by
  have h1 : (60 : K) * ra / 15 - 60 * ((⌊ra / 15⌋ : ℤ) : K) =
      60 * Int.fract (ra / 15) := by
    rw [Int.fract]
    ring
  rw [raMilliMin, h1]
  have h2 : Int.fract (ra / 15) < 1 := Int.fract_lt_one _
  have h4 : ⌊(60 : K) * Int.fract (ra / 15) * 1000 + 1 / 2⌋ < 60001 := by
    rw [Int.floor_lt]
    push_cast
    nlinarith
  exact Int.toNat_le.mpr (by exact_mod_cast (by omega : ⌊(60 : K) * Int.fract (ra / 15) * 1000 + 1 / 2⌋ ≤ 60000))

lemma deCentiMin_le {K : Type} [LinearOrderedField K] [FloorRing K] (de : K) :
    deCentiMin de ≤ 6000 := by
  have h1 : (60 : K) * |de| - 60 * ((⌊|de|⌋ : ℤ) : K) =
      60 * Int.fract |de| := by
    rw [Int.fract]
    ring
  rw [deCentiMin, h1]
  have h2 : Int.fract |de| < 1 := Int.fract_lt_one _
  have h4 : ⌊(60 : K) * Int.fract |de| * 100 + 1 / 2⌋ < 6001 := by
    rw [Int.floor_lt]
    push_cast
    nlinarith
  exact Int.toNat_le.mpr (by exact_mod_cast (by omega : ⌊(60 : K) * Int.fract |de| * 100 + 1 / 2⌋ ≤ 6000))

/-- Claim C9: for an observation with object id in [0, 99999], site id in
[0, 9999], a catalog tag of at most 9 characters, ra in [0°, 360°), dec in
[-90°, +90°] and a millisecond-precision timestamp (17 digits once
compacted), the report line is the fixed-width assembly in which the id
occupies exactly 5 digits, the tag is left-justified in 9 characters, the
site id occupies 4 digits, the timestamp is compacted to digits only, the
literal tokens `G`, `17 25` and `37 S` mark format and epoch, and the
14-character coordinate string renders ra as hours, minutes and
milli-minutes and dec as a sign plus degrees, minutes and centi-minutes;
the whole line is 66 characters. -/
theorem c9_iod_line_layout {K : Type} [LinearOrderedField K] [FloorRing K]
    (norad site_id : ℕ) (cospar nfd : String) (ra de : K)
    (hnorad : norad ≤ 99999) (hsite : site_id ≤ 9999)
    (hcospar : cospar.length ≤ 9) (_hra0 : 0 ≤ ra) (hra1 : ra < 360)
    (hde : |de| ≤ 90) (hnfd : (compactTime nfd).length = 17) :
    iodLineOf norad cospar site_id nfd (format_position ra de) =
      fmtNat 5 norad ++ " " ++
      (cospar ++ String.mk (List.replicate (9 - cospar.length) ' ')) ++ " " ++
      fmtNat 4 site_id ++ " G " ++ compactTime nfd ++ " 17 25 " ++
      format_position ra de ++ " 37 S" ∧
    (fmtNat 5 norad).length = 5 ∧
    (padSpaces 9 cospar).length = 9 ∧
    (fmtNat 4 site_id).length = 4 ∧
    format_position ra de = String.mk (
      padz 2 (natChars (⌊ra / 15⌋).toNat) ++
      (padz 2 (natChars (raMilliMin ra / 1000)) ++
       padz 3 (natChars (raMilliMin ra % 1000)) ++
      ((if de < 0 then '-' else '+') ::
       (padz 2 (natChars (⌊|de|⌋).toNat) ++
        (padz 2 (natChars (deCentiMin de / 100)) ++
         padz 2 (natChars (deCentiMin de % 100))))))) ∧
    (format_position ra de).length = 14 ∧
    (iodLineOf norad cospar site_id nfd (format_position ra de)).length = 66 := by
  have hlen_norad : (natChars norad).length ≤ 5 := by
    apply natChars_length_le norad 5 (by norm_num)
    norm_num
    omega
  have hlen_site : (natChars site_id).length ≤ 4 := by
    apply natChars_length_le site_id 4 (by norm_num)
    norm_num
    omega
  have hrah : (⌊ra / 15⌋).toNat ≤ 23 := by
    apply Int.toNat_le.mpr
    have : ⌊ra / 15⌋ < 24 := by
      rw [Int.floor_lt]
      push_cast
      linarith
    omega
  have hded : (⌊|de|⌋).toNat ≤ 90 := by
    apply Int.toNat_le.mpr
    have : ⌊|de|⌋ < 91 := by
      rw [Int.floor_lt]
      push_cast
      linarith [abs_nonneg de]
    omega
  have hmra := raMilliMin_le ra
  have hmde := deCentiMin_le de
  have l1 : (natChars (⌊ra / 15⌋).toNat).length ≤ 2 :=
    natChars_length_le _ 2 (by norm_num) (by norm_num; omega)
  have l2 : (natChars (raMilliMin ra / 1000)).length ≤ 2 := by
    apply natChars_length_le _ 2 (by norm_num)
    have hdd : raMilliMin ra / 1000 ≤ 60000 / 1000 := Nat.div_le_div_right hmra
    norm_num at hdd ⊢
    omega
  have l3 : (natChars (raMilliMin ra % 1000)).length ≤ 3 :=
    natChars_length_le _ 3 (by norm_num)
      (by norm_num; exact Nat.mod_lt _ (by norm_num))
  have l4 : (natChars (⌊|de|⌋).toNat).length ≤ 2 :=
    natChars_length_le _ 2 (by norm_num) (by norm_num; omega)
  have l5 : (natChars (deCentiMin de / 100)).length ≤ 2 := by
    apply natChars_length_le _ 2 (by norm_num)
    have hdd : deCentiMin de / 100 ≤ 6000 / 100 := Nat.div_le_div_right hmde
    norm_num at hdd ⊢
    omega
  have l6 : (natChars (deCentiMin de % 100)).length ≤ 2 :=
    natChars_length_le _ 2 (by norm_num)
      (by norm_num; exact Nat.mod_lt _ (by norm_num))
  have hfp := format_position_eq ra de
  have hfplen : (format_position ra de).length = 14 := by
    rw [hfp, stringLength_mk]
    simp only [List.length_append, List.length_cons,
      padz_length 2 _ l1, padz_length 2 _ l2, padz_length 3 _ l3,
      padz_length 2 _ l4, padz_length 2 _ l5, padz_length 2 _ l6]
  have hf5 : (fmtNat 5 norad).length = 5 := by
    rw [fmtNat, stringLength_mk, padz_length 5 _ hlen_norad]
  have hf4 : (fmtNat 4 site_id).length = 4 := by
    rw [fmtNat, stringLength_mk, padz_length 4 _ hlen_site]
  have hps : (padSpaces 9 cospar).length = 9 := by
    simp only [padSpaces, String.length_append, stringLength_mk,
      List.length_replicate]
    omega
  refine ⟨rfl, hf5, hps, hf4, hfp, hfplen, ?_⟩
  rw [iodLineOf]
  simp only [String.length_append, hf5, hf4, hfplen, hnfd]
  have : (padSpaces 9 cospar).length = 9 := hps
  rw [this]
  rfl

/-- Claim C9, witness: the station-profile test vector (id 25544, catalog
tag `"98 067A"`, site 4171, timestamp 2022-03-24T18:53:20.708, ra
123.456°, dec −45.678°) renders as a 66-character line with a 14-character
coordinate field. -/
theorem c9_witness :
    (format_position (123456 / 1000 : ℚ) (-45678 / 1000)).length = 14 ∧
    (iodLineOf 25544 "98 067A" 4171 "2022-03-24T18:53:20.708"
      (format_position (123456 / 1000 : ℚ) (-45678 / 1000))).length = 66 := by
  have h := c9_iod_line_layout 25544 4171 "98 067A" "2022-03-24T18:53:20.708"
      (123456 / 1000 : ℚ) (-45678 / 1000) (by norm_num) (by norm_num)
      (by decide) (by norm_num) (by norm_num)
      (by rw [abs_le]; constructor <;> norm_num) (by decide)
  exact ⟨h.2.2.2.2.2.1, h.2.2.2.2.2.2⟩

end Stvid
